import Mathlib

/-!
# BlogPostItem (src/theme/BlogPostItem/index.js)

A shallow embedding of the `BlogPostItem` React component and of the helper
`useReadingTimePlural`, followed by theorems about the derived download link,
the slug, the reading-time region, the title heading, the image resolution and
the footer affordances.

JavaScript strings are sequences of UTF-16 code units; they are modelled as
lists of natural numbers, one per code unit.
-/

namespace Theme

/-! ## JavaScript strings -/

/-- A JavaScript string: the list of its UTF-16 code units. -/
abbrev JSString := List Nat

/-- UTF-16 encoding of one Unicode scalar value. -/
def utf16 (c : Char) : List Nat :=
  if c.toNat < 65536 then [c.toNat]
  else [55296 + (c.toNat - 65536) / 1024, 56320 + (c.toNat - 65536) % 1024]

/-- The JavaScript string written as the literal `s`. -/
def str (s : String) : JSString :=
  s.data.flatMap utf16

/-- The code unit of `/`. -/
def slashUnit : Nat := 47

/-- `s.substring(start, end)` of ECMAScript: both positions are clamped to
`[0, s.length]` and swapped when out of order; an omitted `end` (here `none`)
stands for `s.length`. -/
def substring (s : JSString) (start : Int) (endPos : Option Int) : JSString :=
  let len : Int := s.length
  let intEnd : Int := endPos.getD len
  let finalStart : Int := min (max start 0) len
  let finalEnd : Int := min (max intEnd 0) len
  let lo : Int := min finalStart finalEnd
  let hi : Int := max finalStart finalEnd
  (s.drop lo.toNat).take (hi - lo).toNat

/-- The descending scan of `StringLastIndexOf`: the greatest `i ≤ k` at which
`search` occurs in `s`, or `-1`. -/
def lastIndexOfFrom (s search : JSString) : Nat → Int
  | 0 => if search.isPrefixOf s then 0 else -1
  | k + 1 =>
    if search.isPrefixOf (s.drop (k + 1)) then ((k + 1 : Nat) : Int)
    else lastIndexOfFrom s search k

/-- `s.lastIndexOf(search)` of ECMAScript with the position omitted: the scan
starts at `s.length - search.length`; a search string longer than `s` is not
found. -/
def lastIndexOf (s search : JSString) : Int :=
  if s.length < search.length then -1
  else lastIndexOfFrom s search (s.length - search.length)

/-! ## Link derivation in `renderPostHeader` (lines 71-79 and 104) -/

/-- Line 71: `permalink.substring(permalink.lastIndexOf("/") + 1)`. -/
def slug (permalink : JSString) : JSString :=
  substring permalink (lastIndexOf permalink (str "/") + 1) none

/-- Line 72: `currentLocale == "de" ? "" : currentLocale + "/"`. -/
def locale (currentLocale : JSString) : JSString :=
  if currentLocale = str "de" then str "" else currentLocale ++ str "/"

/-- Line 74: the guard `locale != "de"`. -/
def stripGuard (currentLocale : JSString) : Bool :=
  locale currentLocale != str "de"

/-- Lines 73-79: `defaultBaseUrl` starts as `baseUrl` and is replaced by
`baseUrl.substring(0, baseUrl.length - (locale + "/").length)` under the guard. -/
def defaultBaseUrl (baseUrl currentLocale : JSString) : JSString :=
  if stripGuard currentLocale then
    substring baseUrl 0
      (some ((baseUrl.length : Int) - ((locale currentLocale ++ str "/").length : Int)))
  else baseUrl

/-- Line 104: `defaultBaseUrl + "/pdfs/" + locale + slug + ".pdf"`. -/
def downloadHref (baseUrl currentLocale permalink : JSString) : JSString :=
  defaultBaseUrl baseUrl currentLocale ++ str "/pdfs/" ++ locale currentLocale
    ++ slug permalink ++ str ".pdf"

/-! ## JavaScript numbers and `useReadingTimePlural` (lines 21-40) -/

/-- A JavaScript number: a finite double, given as the rational it denotes
(the sign of zero is not kept), or one of `NaN`, `Infinity`, `-Infinity`. -/
inductive JSNumber where
  | finite (q : ℚ)
  | nan
  | posInf
  | negInf
  deriving DecidableEq

/-- `Math.ceil`: the least integer not below the argument; `NaN` and the
infinities are returned unchanged. -/
def mathCeil : JSNumber → JSNumber
  | .finite q => .finite (⌈q⌉ : Int)
  | .nan => .nan
  | .posInf => .posInf
  | .negInf => .negInf

/-- The arguments of one `translate(message, values)` call. -/
structure TranslateCall where
  id : String
  description : String
  message : String
  values : List (String × JSNumber)

/-- The arguments of one `selectMessage(count, pluralMessages)` call, the
second argument being the result of a `translate` call. -/
structure SelectMessageCall where
  count : JSNumber
  pluralMessages : TranslateCall

/-- Lines 23-39: the function returned by `useReadingTimePlural`, as the call it
makes. -/
def readingTimePluralCall (readingTimeFloat : JSNumber) : SelectMessageCall :=
  let readingTime := mathCeil readingTimeFloat
  { count := readingTime
    pluralMessages :=
      { id := "theme.blog.post.readingTime.plurals"
        description := "Pluralized label for \"{readingTime} min read\". Use as much plural forms (separated by \"|\") as your language support (see https://www.unicode.org/cldr/cldr-aux/charts/34/supplemental/language_plural_rules.html)"
        message := "One min read|{readingTime} min read"
        values := [("readingTime", readingTime)] } }

/-! ## Inputs of the component -/

/-- An optional string field of a JavaScript object. -/
inductive OptString where
  | undefined
  | null
  | string (s : JSString)
  deriving DecidableEq

/-- JavaScript truthiness of an optional string: a non-empty string. -/
def OptString.truthy : OptString → Bool
  | .string s => !s.isEmpty
  | _ => false

/-- `a ?? b` on optional strings. -/
def OptString.nullish (a b : OptString) : OptString :=
  match a with
  | .undefined => b
  | .null => b
  | .string s => .string s

structure Tag where
  label : JSString
  permalink : JSString
  deriving DecidableEq

/-- An author record; the component passes it on without reading it. -/
structure Author where
  handle : Nat
  deriving DecidableEq

structure Assets where
  image : OptString
  deriving DecidableEq

structure FrontMatter where
  image : OptString
  deriving DecidableEq

structure Metadata where
  date : JSString
  formattedDate : JSString
  permalink : JSString
  tags : List Tag
  readingTime : Option JSNumber
  title : JSString
  editUrl : OptString
  authors : List Author

/-- The compiled post body handed in as `children`; the component embeds it
without looking inside. -/
structure Content where
  handle : Nat
  deriving DecidableEq

/-- The props of `BlogPostItem`; `isBlogPostPage = none` is an omitted prop. -/
structure Props where
  children : Content
  frontMatter : FrontMatter
  assets : Assets
  metadata : Metadata
  truncated : Bool
  isBlogPostPage : Option Bool

/-- The class names of `styles.module.css` read by the component. -/
structure Styles where
  blogPostTitle : JSString
  blogPostData : JSString
  blogPostDetailsFull : JSString

/-- What the component reads from its surroundings: the site configuration
(`useDocusaurusContext`), the CSS module, `withBaseUrl` (its second argument is
the `absolute` option), and the `selectMessage` and `translate` functions. -/
structure Env where
  baseUrl : JSString
  currentLocale : JSString
  styles : Styles
  withBaseUrl : JSString → Bool → JSString
  selectMessage : JSNumber → JSString → JSString
  translate : TranslateCall → JSString

/-- Line 43 and 99: `readingTimePlural(readingTime)`. -/
def useReadingTimePlural (env : Env) (readingTimeFloat : JSNumber) : JSString :=
  let call := readingTimePluralCall readingTimeFloat
  env.selectMessage call.count (env.translate call.pluralMessages)

/-! ## The rendered element tree -/

/-- The value of a prop of a rendered element. -/
inductive PropValue where
  | undefined
  | string (s : JSString)
  | bool (b : Bool)
  | tags (ts : List Tag)
  | authors (as : List Author)
  | assets (a : Assets)
  | mdxComponents
  deriving DecidableEq

/-- A React node: the falsy values that render nothing, text, the embedded post
body, and elements (host tags and components alike, by name). -/
inductive Node where
  | undefined
  | null
  | bool (b : Bool)
  | text (s : JSString)
  | content (c : Content)
  | element (type : String) (props : List (String × PropValue)) (children : List Node)

/-- An optional string used as a JSX child. -/
def OptString.toNode : OptString → Node
  | .undefined => .undefined
  | .null => .null
  | .string s => .text s

/-- `cond && node` for a boolean `cond`. -/
def andNode (cond : Bool) (node : Node) : Node :=
  if cond then node else .bool false

/-- `value && node` for an optional string `value`: the node, built from the
string, when the value is a non-empty string; otherwise the falsy value
itself. -/
def OptString.andNode (value : OptString) (node : JSString → Node) : Node :=
  match value with
  | .string s => if s.isEmpty then .text s else node s
  | .undefined => .undefined
  | .null => .null

mutual
/-- All nodes of a tree, the root first. -/
def Node.descendants : Node → List Node
  | .undefined => [.undefined]
  | .null => [.null]
  | .bool b => [.bool b]
  | .text s => [.text s]
  | .content c => [.content c]
  | .element t ps cs => .element t ps cs :: Node.descendantsList cs
/-- All nodes of a list of trees. -/
def Node.descendantsList : List Node → List Node
  | [] => []
  | n :: ns => Node.descendants n ++ Node.descendantsList ns
end

/-- Whether a node is an element of the given type. -/
def Node.isElementOf (type : String) : Node → Bool
  | .element t _ _ => t == type
  | _ => false

/-- Whether the tree holds an element of the given type. -/
def Node.containsElement (type : String) (n : Node) : Bool :=
  n.descendants.any (Node.isElementOf type)

/-- `clsx` on string arguments and one-key objects `{[key]: flag}`, each given
as a class name and its flag (`true` for a plain string): the non-empty class
names whose flag holds, joined by one space. -/
def clsx (args : List (JSString × Bool)) : JSString :=
  List.intercalate (str " ")
    ((args.filter (fun a => a.2 && !a.1.isEmpty)).map (fun a => a.1))

/-! ## `BlogPostItem` (lines 42-176) -/

/-- Line 63: `assets.image ?? frontMatter.image`. -/
def resolveImage (assets : Assets) (frontMatter : FrontMatter) : OptString :=
  assets.image.nullish frontMatter.image

/-- Line 51: the destructuring default `isBlogPostPage = false`. -/
def Props.isBlogPostPageFlag (props : Props) : Bool :=
  props.isBlogPostPage.getD false

/-- Lines 82-90: the title heading. -/
def titleHeading (env : Env) (props : Props) : Node :=
  let isBlogPostPage := props.isBlogPostPageFlag
  let TitleHeading := if isBlogPostPage then "h1" else "h2"
  .element TitleHeading
    [("className", .string env.styles.blogPostTitle), ("itemProp", .string (str "headline"))]
    [if isBlogPostPage then .text props.metadata.title
     else .element "Link"
       [("itemProp", .string (str "url")), ("to", .string props.metadata.permalink)]
       [.text props.metadata.title]]

/-- Lines 96-101: the reading-time region. -/
def readingTimeRegion (env : Env) (props : Props) : Node :=
  match props.metadata.readingTime with
  | none => .bool false
  | some readingTime =>
    .element "Fragment" [] [.text (str " · "), .text (useReadingTimePlural env readingTime)]

/-- Lines 69-109: `renderPostHeader`. -/
def renderPostHeader (env : Env) (props : Props) : Node :=
  let metadata := props.metadata
  .element "header" []
    [ titleHeading env props,
      .element "div"
        [("className", .string (clsx [(env.styles.blogPostData, true),
            (str "margin-vert--md", true)]))]
        [ .element "time"
            [("dateTime", .string metadata.date), ("itemProp", .string (str "datePublished"))]
            [.text metadata.formattedDate],
          readingTimeRegion env props ],
      .element "BlogPostAuthors"
        [("authors", .authors metadata.authors), ("assets", .assets props.assets)] [],
      .element "a"
        [("href", .string (downloadHref env.baseUrl env.currentLocale metadata.permalink))]
        [.text (str "Als PDF herunterladen")] ]

/-- Lines 157-169: the read-more link. -/
def readMoreLink (metadata : Metadata) : Node :=
  .element "Link"
    [("to", .string metadata.permalink),
     ("aria-label", .string (str "Read more about " ++ metadata.title))]
    [.element "b" []
      [.element "Translate"
        [("id", .string (str "theme.blog.post.readMore")),
         ("description", .string
            (str "The label used in blog post item excerpts to link to full blog posts"))]
        [.text (str "Read More")]]]

/-- Lines 134-172: the footer element. -/
def footer (env : Env) (props : Props) : Node :=
  let isBlogPostPage := props.isBlogPostPageFlag
  let metadata := props.metadata
  .element "footer"
    [("className", .string (clsx [(str "row docusaurus-mt-lg", true),
        (env.styles.blogPostDetailsFull, isBlogPostPage)]))]
    [ andNode (decide (metadata.tags.length > 0))
        (.element "div"
          [("className", .string (clsx [(str "col", true), (str "col--9", !isBlogPostPage)]))]
          [.element "TagsListInline" [("tags", .tags metadata.tags)] []]),
      (if isBlogPostPage then
        metadata.editUrl.andNode (fun editUrl =>
          .element "div" [("className", .string (str "col margin-top--sm"))]
            [.element "EditThisPage" [("editUrl", .string editUrl)] []])
       else .bool false),
      andNode (!isBlogPostPage && props.truncated)
        (.element "div" [("className", .string (str "col col--3 text--right"))]
          [readMoreLink metadata]) ]

/-- Lines 120-127: the image meta element. -/
def imageMeta (env : Env) (props : Props) : Node :=
  (resolveImage props.assets props.frontMatter).andNode (fun image =>
    .element "meta"
      [("itemProp", .string (str "image")),
       ("content", .string (env.withBaseUrl image true))] [])

/-- Lines 129-131: the body container around the embedded post body. -/
def bodyRegion (props : Props) : Node :=
  .element "div"
    [("className", .string (str "markdown")), ("itemProp", .string (str "articleBody"))]
    [.element "MDXProvider" [("components", .mdxComponents)] [.content props.children]]

/-- Lines 133-173: the footer under its guard `tags.length > 0 || truncated`. -/
def footerRegion (env : Env) (props : Props) : Node :=
  andNode (decide (props.metadata.tags.length > 0) || props.truncated) (footer env props)

/-- Lines 111-175: the article returned by `BlogPostItem`. -/
def BlogPostItem (env : Env) (props : Props) : Node :=
  let isBlogPostPage := props.isBlogPostPageFlag
  .element "article"
    [("className", if !isBlogPostPage then .string (str "margin-bottom--xl") else .undefined),
     ("itemProp", .string (str "blogPost")),
     ("itemScope", .bool true),
     ("itemType", .string (str "http://schema.org/BlogPosting"))]
    [ renderPostHeader env props,
      imageMeta env props,
      bodyRegion props,
      footerRegion env props ]

/-- Whether a node is the read-more link: a `Link` element carrying an
`aria-label` prop. -/
def Node.isReadMore : Node → Bool
  | .element t ps _ => t == "Link" && ps.any (fun p => p.1 == "aria-label")
  | _ => false

/-- Whether the tree holds the read-more link. -/
def Node.containsReadMore (n : Node) : Bool :=
  n.descendants.any Node.isReadMore

/-- Whether the tree holds the given node. -/
def Node.containsNode (n m : Node) : Prop :=
  m ∈ n.descendants

/-- The predicates on nodes that single out the footer, its three parts and the
image meta element. -/
def regionTests : List (Node → Bool) :=
  [Node.isElementOf "footer", Node.isElementOf "EditThisPage",
   Node.isElementOf "TagsListInline", Node.isElementOf "meta", Node.isReadMore]

/-! ## Concrete inputs -/

/-- A site configuration used to evaluate the component on concrete inputs. -/
def sampleEnv : Env :=
  { baseUrl := str "/site/en/"
    currentLocale := str "en"
    styles := ⟨str "title", str "data", str "full"⟩
    withBaseUrl := fun url _ => url
    selectMessage := fun _ message => message
    translate := fun call => str call.message }

/-- A post used to evaluate the component on concrete inputs. -/
def sampleMetadata : Metadata :=
  { date := str "2021-08-01T00:00:00.000Z"
    formattedDate := str "1. August 2021"
    permalink := str "/en/blog/my-post"
    tags := []
    readingTime := some (.finite (1 / 2))
    title := str "My post"
    editUrl := .string (str "https://example.org/edit")
    authors := [] }

/-- Props used to evaluate the component: a full post page without tags. -/
def sampleProps : Props :=
  { children := ⟨0⟩
    frontMatter := ⟨.string (str "b.png")⟩
    assets := ⟨.undefined⟩
    metadata := sampleMetadata
    truncated := false
    isBlogPostPage := some true }

/-- The sample full post page, truncated, with the given `editUrl`. -/
def truncatedPageProps (editUrl : OptString) : Props :=
  { sampleProps with
    truncated := true
    metadata := { sampleMetadata with editUrl := editUrl } }

/-! ## String lemmas -/

theorem str_slash : str "/" = [slashUnit] := by decide

theorem str_empty : str "" = [] := by decide

theorem substring_zero_some (s : JSString) (e : Int) :
    substring s 0 (some e) = s.take (max 0 e).toNat := by
  unfold substring
  simp only [Option.getD_some]
  have h0 : (0 : Int) ≤ (s.length : Int) := Int.ofNat_nonneg _
  rcases le_total e 0 with he | he
  · have h1 : max e 0 = 0 := max_eq_right he
    have h2 : max 0 e = 0 := max_eq_left he
    simp [h1, h2, h0]
  · have h1 : max e 0 = e := max_eq_left he
    have h2 : max 0 e = e := max_eq_right he
    simp only [h1, h2, max_self, min_eq_left h0]
    have h3 : min (0 : Int) (min e (s.length : Int)) = 0 := min_eq_left (le_min he h0)
    have h4 : max (0 : Int) (min e (s.length : Int)) = min e s.length :=
      max_eq_right (le_min he h0)
    simp only [h3, h4, Int.toNat_zero, List.drop_zero, sub_zero]
    rw [List.take_eq_take]
    rcases le_total e (s.length : Int) with hle | hle
    · rw [min_eq_left hle]
    · rw [min_eq_right hle]
      omega

theorem substring_from (s : JSString) (k : Nat) :
    substring s (k : Int) none = s.drop k := by
  unfold substring
  have h0 : (0 : Int) ≤ (s.length : Int) := Int.ofNat_nonneg _
  have hk : (0 : Int) ≤ (k : Int) := Int.ofNat_nonneg _
  simp only [Option.getD_none, max_eq_left hk, max_eq_left h0, min_self]
  rcases le_total k s.length with h | h
  · have hc : ((k : Int)) ≤ (s.length : Int) := by exact_mod_cast h
    simp only [min_eq_left hc, max_eq_right hc, Int.toNat_ofNat]
    apply List.take_of_length_le
    simp only [List.length_drop]
    omega
  · have hc : ((s.length : Int)) ≤ (k : Int) := by exact_mod_cast h
    simp only [min_eq_right hc, max_eq_left hc, min_self, max_self, sub_self, Int.toNat_ofNat,
      Int.toNat_zero, List.take_zero]
    exact (List.drop_of_length_le h).symm

theorem isPrefixOf_slash (s : JSString) (k : Nat) :
    List.isPrefixOf [slashUnit] (s.drop k) = true ↔ s[k]? = some slashUnit := by
  have hget : (s.drop k)[0]? = s[k]? := by simp [List.getElem?_drop]
  rw [← hget]
  cases s.drop k with
  | nil => simp [List.isPrefixOf]
  | cons a t =>
    simp only [List.isPrefixOf, List.getElem?_cons_zero, Option.some.injEq, Bool.and_true,
      beq_iff_eq]
    exact eq_comm

/-- What the descending scan for `/` returns: `-1` when no position up to `k`
holds `/`, otherwise the greatest such position. -/
theorem lastIndexOfFrom_slash (s : JSString) (k : Nat) :
    (lastIndexOfFrom s [slashUnit] k = -1 ∧ ∀ i, i ≤ k → s[i]? ≠ some slashUnit) ∨
    (∃ r : Nat, r ≤ k ∧ lastIndexOfFrom s [slashUnit] k = (r : Int) ∧ s[r]? = some slashUnit ∧
      ∀ i, r < i → i ≤ k → s[i]? ≠ some slashUnit) := by
  induction k with
  | zero =>
    have hp := isPrefixOf_slash s 0
    rw [List.drop_zero] at hp
    by_cases h : List.isPrefixOf [slashUnit] s = true
    · right
      refine ⟨0, le_refl _, ?_, hp.1 h, ?_⟩
      · simp [lastIndexOfFrom, h]
      · intro i h1 h2; omega
    · left
      refine ⟨?_, ?_⟩
      · simp [lastIndexOfFrom, h]
      · intro i hi
        have : i = 0 := by omega
        subst this
        exact fun hc => h (hp.2 hc)
  | succ k ih =>
    have hp := isPrefixOf_slash s (k + 1)
    by_cases h : List.isPrefixOf [slashUnit] (s.drop (k + 1)) = true
    · right
      refine ⟨k + 1, le_refl _, ?_, hp.1 h, ?_⟩
      · simp [lastIndexOfFrom, h]
      · intro i h1 h2; omega
    · have hstep : lastIndexOfFrom s [slashUnit] (k + 1) = lastIndexOfFrom s [slashUnit] k := by
        simp [lastIndexOfFrom, h]
      have hk1 : s[k + 1]? ≠ some slashUnit := fun hc => h (hp.2 hc)
      rcases ih with ⟨h1, h2⟩ | ⟨r, hr, h1, h2, h3⟩
      · left
        refine ⟨hstep.trans h1, ?_⟩
        intro i hi
        rcases Nat.lt_or_ge i (k + 1) with hlt | hge
        · exact h2 i (by omega)
        · have : i = k + 1 := by omega
          subst this; exact hk1
      · right
        refine ⟨r, by omega, hstep.trans h1, h2, ?_⟩
        intro i hri hi
        rcases Nat.lt_or_ge i (k + 1) with hlt | hge
        · exact h3 i hri (by omega)
        · have : i = k + 1 := by omega
          subst this; exact hk1

/-- The slug is either the whole permalink, which then holds no `/`, or what
follows a `/` at some position `r` with no `/` after it. -/
theorem slug_cases (p : JSString) :
    (slug p = p ∧ slashUnit ∉ p) ∨
    (∃ r : Nat, slug p = p.drop (r + 1) ∧ p[r]? = some slashUnit ∧
      ∀ i, r < i → p[i]? ≠ some slashUnit) := by
  unfold slug lastIndexOf
  rw [str_slash]
  by_cases hlen : p.length < [slashUnit].length
  · left
    have hnil : p = [] := by
      simp only [List.length_singleton, Nat.lt_one_iff, List.length_eq_zero] at hlen
      exact hlen
    subst hnil
    refine ⟨by decide, by simp⟩
  · simp only [hlen, if_false]
    have hpos : 1 ≤ p.length := by
      simp only [List.length_singleton] at hlen; omega
    have hbeyond : ∀ i, p.length - 1 < i → p[i]? ≠ some slashUnit := by
      intro i hi
      have : p[i]? = none := List.getElem?_eq_none (by omega)
      simp [this]
    rcases lastIndexOfFrom_slash p (p.length - [slashUnit].length) with
      ⟨h1, h2⟩ | ⟨r, hr, h1, h2, h3⟩
    · left
      rw [h1]
      refine ⟨?_, ?_⟩
      · have := substring_from p 0
        simpa using this
      · intro hmem
        obtain ⟨i, hi⟩ := List.mem_iff_getElem?.1 hmem
        simp only [List.length_singleton] at h2
        rcases Nat.lt_or_ge (p.length - 1) i with hlt | hge
        · exact hbeyond i hlt hi
        · exact h2 i hge hi
    · right
      refine ⟨r, ?_, h2, ?_⟩
      · rw [h1]
        have := substring_from p (r + 1)
        simpa using this
      · intro i hri
        simp only [List.length_singleton] at h3
        rcases Nat.lt_or_ge (p.length - 1) i with hlt | hge
        · exact hbeyond i hlt
        · exact h3 i hri hge

theorem locale_ne_de (currentLocale : JSString) : locale currentLocale ≠ str "de" := by
  unfold locale
  split
  · decide
  · intro h
    have h2 := congrArg List.reverse h
    rw [str_slash] at h2
    simp only [List.reverse_append, List.reverse_cons, List.reverse_nil, List.nil_append,
      List.singleton_append] at h2
    have h3 : (str "de").reverse = [101, 100] := by decide
    rw [h3] at h2
    have h4 := (List.cons.inj h2).1
    exact absurd h4 (by decide)

theorem stripGuard_true (currentLocale : JSString) : stripGuard currentLocale = true := by
  unfold stripGuard
  simp [bne_iff_ne, locale_ne_de]

theorem defaultBaseUrl_eq_take (baseUrl currentLocale : JSString) :
    defaultBaseUrl baseUrl currentLocale =
      baseUrl.take
        (max 0 ((baseUrl.length : Int) - ((locale currentLocale).length : Int) - 1)).toNat := by
  unfold defaultBaseUrl
  rw [stripGuard_true, if_pos rfl, substring_zero_some, str_slash]
  congr 2
  simp only [List.length_append, List.length_singleton]
  push_cast
  ring_nf

/-! ## The download link -/

/-- C1, as stated, fails: with `currentLocale = "de"` the locale is the empty
string, yet `defaultBaseUrl` is not `baseUrl`. For `baseUrl = "/site/"` and
`permalink = "/blog/my-post"` the code yields `defaultBaseUrl = "/site"` and the
link `"/site/pdfs/my-post.pdf"`, not `baseUrl + "/pdfs/" + slug + ".pdf"`; for
the scenario `baseUrl = "/site"` it yields `"/sit"` and
`"/sit/pdfs/my-post.pdf"`. -/
theorem de_defaultBaseUrl_drops_last_unit :
    locale (str "de") = str "" ∧
    stripGuard (str "de") = true ∧
    slug (str "/blog/my-post") = str "my-post" ∧
    defaultBaseUrl (str "/site/") (str "de") = str "/site" ∧
    defaultBaseUrl (str "/site/") (str "de") ≠ str "/site/" ∧
    downloadHref (str "/site/") (str "de") (str "/blog/my-post")
      ≠ str "/site/" ++ str "/pdfs/" ++ slug (str "/blog/my-post") ++ str ".pdf" ∧
    defaultBaseUrl (str "/site") (str "de") = str "/sit" ∧
    defaultBaseUrl (str "/site") (str "de") ≠ str "/site" ∧
    downloadHref (str "/site") (str "de") (str "/blog/my-post") = str "/sit/pdfs/my-post.pdf" ∧
    downloadHref (str "/site") (str "de") (str "/blog/my-post")
      ≠ str "/site/pdfs/my-post.pdf" := by
  decide

/-- C1, amended: with `currentLocale = "de"` the locale is the empty string and
`defaultBaseUrl` is `baseUrl` without its last code unit, so for every
`baseUrl` and `permalink` the download link is that shortened `baseUrl`
followed by `"/pdfs/" + slug + ".pdf"`; for every `root`, `baseUrl = root + "/"`
gives `defaultBaseUrl = root` and the link `root + "/pdfs/" + slug + ".pdf"`; in
particular `baseUrl = "/site/"` and `permalink = "/blog/my-post"` give
`defaultBaseUrl = "/site"` and the link `"/site/pdfs/my-post.pdf"`. -/
theorem de_link_strips_trailing_unit (baseUrl root permalink : JSString) :
    locale (str "de") = str "" ∧
    defaultBaseUrl baseUrl (str "de") = baseUrl.dropLast ∧
    downloadHref baseUrl (str "de") permalink
      = baseUrl.dropLast ++ str "/pdfs/" ++ slug permalink ++ str ".pdf" ∧
    defaultBaseUrl (root ++ str "/") (str "de") = root ∧
    downloadHref (root ++ str "/") (str "de") permalink
      = root ++ str "/pdfs/" ++ slug permalink ++ str ".pdf" ∧
    defaultBaseUrl (str "/site/") (str "de") = str "/site" ∧
    downloadHref (str "/site/") (str "de") (str "/blog/my-post")
      = str "/site/pdfs/my-post.pdf" := by
  have hloc : locale (str "de") = [] := by decide
  have hdef : ∀ b : JSString, defaultBaseUrl b (str "de") = b.dropLast := by
    intro b
    rw [defaultBaseUrl_eq_take, hloc, List.dropLast_eq_take]
    congr 1
    simp only [List.length_nil]
    omega
  have hhref : ∀ b : JSString, downloadHref b (str "de") permalink
      = b.dropLast ++ str "/pdfs/" ++ slug permalink ++ str ".pdf" := by
    intro b
    unfold downloadHref
    rw [hdef, hloc, List.append_nil]
  have hroot : (root ++ str "/").dropLast = root := by
    rw [str_slash]
    exact List.dropLast_concat
  refine ⟨by decide, hdef baseUrl, hhref baseUrl, ?_, ?_, by decide, by decide⟩
  · rw [hdef, hroot]
  · rw [hhref, hroot]

/-- C2: for every `currentLocale` other than `"de"`, every `root` and every
`permalink`, with `baseUrl = root + "/" + currentLocale + "/"` the locale is
`currentLocale + "/"`, `defaultBaseUrl` is `root`, and the download link is
`root + "/pdfs/" + currentLocale + "/" + slug + ".pdf"`. -/
theorem nonDefault_locale_link (currentLocale root permalink baseUrl : JSString)
    (hde : currentLocale ≠ str "de")
    (hbase : baseUrl = root ++ str "/" ++ currentLocale ++ str "/") :
    locale currentLocale = currentLocale ++ str "/" ∧
    defaultBaseUrl baseUrl currentLocale = root ∧
    downloadHref baseUrl currentLocale permalink =
      root ++ str "/pdfs/" ++ currentLocale ++ str "/" ++ slug permalink ++ str ".pdf" := by
  have hloc : locale currentLocale = currentLocale ++ str "/" := by
    unfold locale
    rw [if_neg hde]
  have hdef : defaultBaseUrl baseUrl currentLocale = root := by
    rw [defaultBaseUrl_eq_take, hloc, hbase, str_slash]
    have hlen : (max 0 (((root ++ [slashUnit] ++ currentLocale ++ [slashUnit]).length : Int)
        - ((currentLocale ++ [slashUnit]).length : Int) - 1)).toNat = root.length := by
      simp only [List.length_append, List.length_singleton]
      push_cast
      omega
    rw [hlen]
    simp [List.append_assoc]
  refine ⟨hloc, hdef, ?_⟩
  unfold downloadHref
  rw [hdef, hloc]
  simp [List.append_assoc]

/-- The scenario of C2: `currentLocale = "en"`, `baseUrl = "/site/en/"`,
`permalink = "/en/blog/my-post"` give `defaultBaseUrl = "/site"` and the link
`"/site/pdfs/en/my-post.pdf"`. -/
theorem nonDefault_locale_link_en :
    str "en" ≠ str "de" ∧
    str "/site/en/" = str "/site" ++ str "/" ++ str "en" ++ str "/" ∧
    locale (str "en") = str "en/" ∧
    defaultBaseUrl (str "/site/en/") (str "en") = str "/site" ∧
    downloadHref (str "/site/en/") (str "en") (str "/en/blog/my-post")
      = str "/site/pdfs/en/my-post.pdf" :=
  have h := nonDefault_locale_link (str "en") (str "/site") (str "/en/blog/my-post")
    (str "/site/en/") (by decide) (by decide)
  ⟨by decide, by decide, h.1.trans (by decide), h.2.1, h.2.2.trans (by decide)⟩

/-- C3: for every permalink the slug holds no `/`, and either the permalink
holds no `/` and the slug is the whole permalink, or the permalink is some
leading part followed by `/` and the slug. The derivation is a total
function. -/
theorem slug_is_last_segment (permalink : JSString) :
    slashUnit ∉ slug permalink ∧
    ((slashUnit ∉ permalink ∧ slug permalink = permalink) ∨
      ∃ pre : JSString, permalink = pre ++ str "/" ++ slug permalink) := by
  rcases slug_cases permalink with ⟨h1, h2⟩ | ⟨r, h1, h2, h3⟩
  · exact ⟨by rw [h1]; exact h2, Or.inl ⟨h2, h1⟩⟩
  · refine ⟨?_, Or.inr ⟨permalink.take r, ?_⟩⟩
    · rw [h1]
      intro hmem
      obtain ⟨i, hi⟩ := List.mem_iff_getElem?.1 hmem
      rw [List.getElem?_drop] at hi
      exact h3 (r + 1 + i) (by omega) hi
    · rw [h1, str_slash]
      have hr : r < permalink.length := by
        by_contra hc
        have : permalink[r]? = none := List.getElem?_eq_none (by omega)
        rw [this] at h2
        exact absurd h2 (by simp)
      have hget : permalink[r] = slashUnit := by
        rw [List.getElem?_eq_getElem hr] at h2
        exact Option.some.inj h2
      have hdrop : permalink.drop r = slashUnit :: permalink.drop (r + 1) := by
        rw [← hget]
        exact List.drop_eq_getElem_cons hr
      calc permalink = permalink.take r ++ permalink.drop r := (List.take_append_drop r _).symm
        _ = permalink.take r ++ [slashUnit] ++ permalink.drop (r + 1) := by
          rw [hdrop]; simp

/-- C10: for every `baseUrl` and `currentLocale` the guard `locale != "de"`
holds, and `defaultBaseUrl` is the leading part of `baseUrl` of length
`max(0, |baseUrl| - |locale| - 1)`, where `locale` is `""` for `"de"` and
`currentLocale + "/"` otherwise; the derivation is a total function, also on a
`baseUrl` that does not end with the locale segment or is shorter than it. -/
theorem defaultBaseUrl_length_based (baseUrl currentLocale : JSString) :
    stripGuard currentLocale = true ∧
    locale currentLocale
      = (if currentLocale = str "de" then str "" else currentLocale ++ str "/") ∧
    defaultBaseUrl baseUrl currentLocale =
      baseUrl.take
        (max 0 ((baseUrl.length : Int) - ((locale currentLocale).length : Int) - 1)).toNat ∧
    defaultBaseUrl baseUrl currentLocale <+: baseUrl ∧
    ((defaultBaseUrl baseUrl currentLocale).length : Int)
      = max 0 ((baseUrl.length : Int) - ((locale currentLocale).length : Int) - 1) ∧
    defaultBaseUrl (str "/abc/") (str "en") = str "/" ∧
    defaultBaseUrl (str "/") (str "en") = str "" := by
  refine ⟨stripGuard_true currentLocale, rfl, defaultBaseUrl_eq_take baseUrl currentLocale,
    ?_, ?_, by decide, by decide⟩
  · rw [defaultBaseUrl_eq_take]
    exact List.take_prefix _ _
  · rw [defaultBaseUrl_eq_take, List.length_take]
    omega

/-! ## The header -/

theorem header_fragment_iff (env : Env) (props : Props) :
    (renderPostHeader env props).containsElement "Fragment"
      = props.metadata.readingTime.isSome := by
  rcases props with ⟨c, fm, as, md, tr, _ | b⟩ <;> rcases md with ⟨d, fd, pl, tg, _ | t, ti, eu, au⟩
  all_goals
    first
    | (cases b <;>
        simp [renderPostHeader, titleHeading, readingTimeRegion, Props.isBlogPostPageFlag,
          Node.containsElement, Node.descendants, Node.descendantsList, Node.isElementOf])
    | simp [renderPostHeader, titleHeading, readingTimeRegion, Props.isBlogPostPageFlag,
          Node.containsElement, Node.descendants, Node.descendantsList, Node.isElementOf]

/-- C7: the header holds the reading-time fragment exactly when `readingTime`
is defined; when it is undefined the region is `false`, and for a defined
`readingTime = t` the region is the separator `" · "` followed by the selected
message, where the count given to `selectMessage` and the value given to
`translate` for `readingTime` are both `Math.ceil(t)`; `Math.ceil` of a finite
`t` is the least integer not below `t`: `0.5` gives `1`, `2.1` gives `3`, an
integer gives itself. -/
theorem readingTime_region_ceil (env : Env) (props : Props) :
    ((renderPostHeader env props).containsElement "Fragment" = false
      ↔ props.metadata.readingTime = none) ∧
    (renderPostHeader env props).containsNode (readingTimeRegion env props) ∧
    (props.metadata.readingTime = none → readingTimeRegion env props = .bool false) ∧
    (∀ t, props.metadata.readingTime = some t →
      readingTimeRegion env props = .element "Fragment" []
        [.text (str " · "),
         .text (env.selectMessage (readingTimePluralCall t).count
            (env.translate (readingTimePluralCall t).pluralMessages))]) ∧
    (∀ t, (readingTimePluralCall t).count = mathCeil t ∧
      (readingTimePluralCall t).pluralMessages.message = "One min read|{readingTime} min read" ∧
      (readingTimePluralCall t).pluralMessages.values = [("readingTime", mathCeil t)]) ∧
    (∀ q : ℚ, mathCeil (.finite q) = .finite ((⌈q⌉ : Int) : ℚ)) ∧
    mathCeil (.finite (1 / 2)) = .finite 1 ∧
    mathCeil (.finite (21 / 10)) = .finite 3 ∧
    mathCeil (.finite (4728779608739021 / 2251799813685248)) = .finite 3 ∧
    (∀ n : Int, mathCeil (.finite (n : ℚ)) = .finite (n : ℚ)) := by
  refine ⟨?_, ?_, ?_, ?_, ?_, ?_, ?_, ?_, ?_, ?_⟩
  · rw [header_fragment_iff]
    cases props.metadata.readingTime <;> simp
  · simp [Node.containsNode, renderPostHeader, Node.descendants, Node.descendantsList]
    cases readingTimeRegion env props <;> simp [Node.descendants]
  · intro h
    simp [readingTimeRegion, h]
  · intro t h
    simp [readingTimeRegion, h, useReadingTimePlural]
  · intro t
    exact ⟨rfl, rfl, rfl⟩
  · intro q
    rfl
  · have h : (⌈(1 / 2 : ℚ)⌉ : Int) = 1 := by
      rw [Int.ceil_eq_iff]; norm_num
    show JSNumber.finite ((⌈(1 / 2 : ℚ)⌉ : Int) : ℚ) = .finite 1
    rw [h]; norm_num
  · have h : (⌈(21 / 10 : ℚ)⌉ : Int) = 3 := by
      rw [Int.ceil_eq_iff]; norm_num
    show JSNumber.finite ((⌈(21 / 10 : ℚ)⌉ : Int) : ℚ) = .finite 3
    rw [h]; norm_num
  · have h : (⌈(4728779608739021 / 2251799813685248 : ℚ)⌉ : Int) = 3 := by
      rw [Int.ceil_eq_iff]; norm_num
    show JSNumber.finite ((⌈(4728779608739021 / 2251799813685248 : ℚ)⌉ : Int) : ℚ) = .finite 3
    rw [h]; norm_num
  · intro n
    simp [mathCeil]

/-- The reading-time region of a post with `readingTime = 0.5`: the count and
the substituted value are both `1`. -/
theorem readingTime_region_ceil_half :
    sampleProps.metadata.readingTime = some (.finite (1 / 2)) ∧
    readingTimeRegion sampleEnv sampleProps = .element "Fragment" []
      [.text (str " · "),
       .text (sampleEnv.selectMessage (readingTimePluralCall (.finite (1 / 2))).count
          (sampleEnv.translate (readingTimePluralCall (.finite (1 / 2))).pluralMessages))] ∧
    (readingTimePluralCall (.finite (1 / 2))).count = .finite 1 ∧
    (readingTimePluralCall (.finite (1 / 2))).pluralMessages.values
      = [("readingTime", .finite 1)] :=
  have h := readingTime_region_ceil sampleEnv sampleProps
  have hc := h.2.2.2.2.1 (.finite (1 / 2))
  have h1 := h.2.2.2.2.2.2.1
  ⟨rfl, h.2.2.2.1 _ rfl, hc.1.trans h1, hc.2.2.trans (by rw [h1])⟩

/-- C8: in full-page mode the title heading is an `h1` whose only child is the
title as text, with no link; in excerpt mode, also when `isBlogPostPage` is
omitted, it is an `h2` whose only child is a `Link` to `permalink` holding the
title. The heading is the first child of the header. -/
theorem title_heading_by_mode (env : Env) (props : Props) :
    (∃ rest, renderPostHeader env props
      = .element "header" [] (titleHeading env props :: rest)) ∧
    (props.isBlogPostPage = some true →
      titleHeading env props = .element "h1"
        [("className", .string env.styles.blogPostTitle),
         ("itemProp", .string (str "headline"))]
        [.text props.metadata.title] ∧
      (titleHeading env props).containsElement "Link" = false) ∧
    (props.isBlogPostPage = some false ∨ props.isBlogPostPage = none →
      titleHeading env props = .element "h2"
        [("className", .string env.styles.blogPostTitle),
         ("itemProp", .string (str "headline"))]
        [.element "Link"
          [("itemProp", .string (str "url")), ("to", .string props.metadata.permalink)]
          [.text props.metadata.title]]) := by
  refine ⟨⟨_, rfl⟩, ?_, ?_⟩
  · intro h
    simp [titleHeading, Props.isBlogPostPageFlag, h, Node.containsElement, Node.descendants,
      Node.descendantsList, Node.isElementOf]
  · intro h
    rcases h with h | h <;> simp [titleHeading, Props.isBlogPostPageFlag, h]

/-- The title heading of a full post page and of an excerpt with the mode
omitted. -/
theorem title_heading_by_mode_sample :
    sampleProps.isBlogPostPage = some true ∧
    titleHeading sampleEnv sampleProps = .element "h1"
      [("className", .string (str "title")), ("itemProp", .string (str "headline"))]
      [.text (str "My post")] ∧
    titleHeading sampleEnv { sampleProps with isBlogPostPage := none } = .element "h2"
      [("className", .string (str "title")), ("itemProp", .string (str "headline"))]
      [.element "Link"
        [("itemProp", .string (str "url")), ("to", .string (str "/en/blog/my-post"))]
        [.text (str "My post")]] :=
  ⟨rfl, ((title_heading_by_mode sampleEnv sampleProps).2.1 rfl).1,
    (title_heading_by_mode sampleEnv { sampleProps with isBlogPostPage := none }).2.2
      (Or.inr rfl)⟩

/-! ## The article: image meta element and footer -/

theorem article_descendants (env : Env) (props : Props) :
    (BlogPostItem env props).descendants
      = BlogPostItem env props ::
        ((renderPostHeader env props).descendants ++ ((imageMeta env props).descendants ++
          ((bodyRegion props).descendants ++ (footerRegion env props).descendants))) := by
  simp [BlogPostItem, Node.descendants, Node.descendantsList]

theorem article_root_false (env : Env) (props : Props) (p : Node → Bool) (hp : p ∈ regionTests) :
    p (BlogPostItem env props) = false := by
  simp only [regionTests, List.mem_cons, List.mem_singleton, List.not_mem_nil, or_false] at hp
  rcases hp with rfl | rfl | rfl | rfl | rfl <;>
    simp [BlogPostItem, Node.isElementOf, Node.isReadMore]

theorem header_any_false (env : Env) (props : Props) (p : Node → Bool) (hp : p ∈ regionTests) :
    (renderPostHeader env props).descendants.any p = false := by
  rcases props with ⟨c, fm, as, md, tr, _ | b⟩ <;> rcases md with ⟨d, fd, pl, tg, _ | t, ti, eu, au⟩
  all_goals
    simp only [regionTests, List.mem_cons, List.mem_singleton, List.not_mem_nil, or_false] at hp
    rcases hp with rfl | rfl | rfl | rfl | rfl
  all_goals
    first
    | (cases b <;>
        simp [renderPostHeader, titleHeading, readingTimeRegion, Props.isBlogPostPageFlag,
          Node.descendants, Node.descendantsList, Node.isElementOf, Node.isReadMore])
    | simp [renderPostHeader, titleHeading, readingTimeRegion, Props.isBlogPostPageFlag,
          Node.descendants, Node.descendantsList, Node.isElementOf, Node.isReadMore]

theorem body_any_false (props : Props) (p : Node → Bool) (hp : p ∈ regionTests) :
    (bodyRegion props).descendants.any p = false := by
  simp only [regionTests, List.mem_cons, List.mem_singleton, List.not_mem_nil, or_false] at hp
  rcases hp with rfl | rfl | rfl | rfl | rfl <;>
    simp [bodyRegion, Node.descendants, Node.descendantsList, Node.isElementOf, Node.isReadMore]

/-- Outside the header and the body, a test of `regionTests` is decided by the
image meta element and the footer region. -/
theorem article_any (env : Env) (props : Props) (p : Node → Bool) (hp : p ∈ regionTests) :
    (BlogPostItem env props).descendants.any p
      = ((imageMeta env props).descendants.any p
          || (footerRegion env props).descendants.any p) := by
  rw [article_descendants]
  simp [List.any_cons, List.any_append, article_root_false env props p hp,
    header_any_false env props p hp, body_any_false props p hp]

theorem imageMeta_any_meta (env : Env) (props : Props) :
    (imageMeta env props).descendants.any (Node.isElementOf "meta")
      = (resolveImage props.assets props.frontMatter).truthy := by
  unfold imageMeta
  cases resolveImage props.assets props.frontMatter with
  | undefined => simp [OptString.andNode, OptString.truthy, Node.descendants, Node.isElementOf]
  | null => simp [OptString.andNode, OptString.truthy, Node.descendants, Node.isElementOf]
  | string u =>
    cases u <;>
      simp [OptString.andNode, OptString.truthy, Node.descendants, Node.descendantsList,
        Node.isElementOf]

theorem imageMeta_any_false (env : Env) (props : Props) (p : Node → Bool)
    (hp : p ∈ regionTests) (hmeta : p ≠ Node.isElementOf "meta") :
    (imageMeta env props).descendants.any p = false := by
  simp only [regionTests, List.mem_cons, List.mem_singleton, List.not_mem_nil, or_false] at hp
  unfold imageMeta
  rcases hp with rfl | rfl | rfl | rfl | rfl
  case inr.inr.inr.inl => exact absurd rfl hmeta
  all_goals
    cases resolveImage props.assets props.frontMatter with
    | undefined => simp [OptString.andNode, Node.descendants, Node.isElementOf, Node.isReadMore]
    | null => simp [OptString.andNode, Node.descendants, Node.isElementOf, Node.isReadMore]
    | string u =>
      cases u <;>
        simp [OptString.andNode, Node.descendants, Node.descendantsList, Node.isElementOf,
          Node.isReadMore]

theorem footerRegion_any_footer (env : Env) (props : Props) :
    (footerRegion env props).descendants.any (Node.isElementOf "footer")
      = (decide (props.metadata.tags.length > 0) || props.truncated) := by
  rcases props with ⟨c, fm, as, md, tr, ib⟩
  rcases md with ⟨d, fd, pl, tg, rt, ti, eu, au⟩
  rcases ib with _ | _ | _ <;> cases tr <;> cases tg <;> rcases eu with _ | _ | _ | _ <;>
    simp [footerRegion, footer, andNode, OptString.andNode, Props.isBlogPostPageFlag,
      Node.descendants, Node.descendantsList, Node.isElementOf]

theorem footerRegion_any_meta (env : Env) (props : Props) :
    (footerRegion env props).descendants.any (Node.isElementOf "meta") = false := by
  rcases props with ⟨c, fm, as, md, tr, ib⟩
  rcases md with ⟨d, fd, pl, tg, rt, ti, eu, au⟩
  rcases ib with _ | _ | _ <;> cases tr <;> cases tg <;> rcases eu with _ | _ | _ | _ <;>
    simp [footerRegion, footer, andNode, OptString.andNode, Props.isBlogPostPageFlag,
      Node.descendants, Node.descendantsList, Node.isElementOf, readMoreLink]

theorem footerRegion_any_tags (env : Env) (props : Props) :
    (footerRegion env props).descendants.any (Node.isElementOf "TagsListInline")
      = decide (props.metadata.tags.length > 0) := by
  rcases props with ⟨c, fm, as, md, tr, ib⟩
  rcases md with ⟨d, fd, pl, tg, rt, ti, eu, au⟩
  rcases ib with _ | _ | _ <;> cases tr <;> cases tg <;> rcases eu with _ | _ | _ | _ <;>
    simp [footerRegion, footer, andNode, OptString.andNode, Props.isBlogPostPageFlag,
      Node.descendants, Node.descendantsList, Node.isElementOf, readMoreLink]

theorem footerRegion_any_edit (env : Env) (props : Props) :
    (footerRegion env props).descendants.any (Node.isElementOf "EditThisPage")
      = ((decide (props.metadata.tags.length > 0) || props.truncated)
          && (props.isBlogPostPageFlag && props.metadata.editUrl.truthy)) := by
  rcases props with ⟨c, fm, as, md, tr, ib⟩
  rcases md with ⟨d, fd, pl, tg, rt, ti, eu, au⟩
  rcases ib with _ | _ | _ <;> cases tr <;> cases tg <;> rcases eu with _ | _ | _ | _ <;>
    simp [footerRegion, footer, andNode, OptString.andNode, OptString.truthy,
      Props.isBlogPostPageFlag, Node.descendants, Node.descendantsList, Node.isElementOf,
      readMoreLink]

theorem footerRegion_any_readMore (env : Env) (props : Props) :
    (footerRegion env props).descendants.any Node.isReadMore
      = (!props.isBlogPostPageFlag && props.truncated) := by
  rcases props with ⟨c, fm, as, md, tr, ib⟩
  rcases md with ⟨d, fd, pl, tg, rt, ti, eu, au⟩
  rcases ib with _ | _ | _ <;> cases tr <;> cases tg <;> rcases eu with _ | _ | _ | _ <;>
    simp [footerRegion, footer, andNode, OptString.andNode, OptString.truthy,
      Props.isBlogPostPageFlag, Node.descendants, Node.descendantsList, Node.isElementOf,
      Node.isReadMore, readMoreLink]

theorem footerRegion_readMore_eq (env : Env) (props : Props) (m : Node)
    (hm : m ∈ (footerRegion env props).descendants) (hr : m.isReadMore = true) :
    m = readMoreLink props.metadata := by
  rcases props with ⟨c, fm, as, md, tr, ib⟩
  rcases md with ⟨d, fd, pl, tg, rt, ti, eu, au⟩
  rcases ib with _ | _ | _ <;> cases tr <;> cases tg <;> rcases eu with _ | _ | _ | u
  all_goals
    first
    | (cases u <;>
        simp [footerRegion, footer, andNode, OptString.andNode, Props.isBlogPostPageFlag,
          Node.descendants, Node.descendantsList, readMoreLink] at hm ⊢ <;>
        (rcases hm with rfl | rfl | rfl | rfl | rfl | rfl | rfl | rfl | rfl | rfl <;>
          simp [Node.isReadMore] at hr ⊢))
    | (simp [footerRegion, footer, andNode, OptString.andNode, Props.isBlogPostPageFlag,
          Node.descendants, Node.descendantsList, readMoreLink] at hm ⊢
       rcases hm with rfl | rfl | rfl | rfl | rfl | rfl | rfl | rfl | rfl | rfl <;>
          simp [Node.isReadMore] at hr ⊢)

theorem regionTests_footer : Node.isElementOf "footer" ∈ regionTests := by
  simp [regionTests]

theorem regionTests_edit : Node.isElementOf "EditThisPage" ∈ regionTests := by
  simp [regionTests]

theorem regionTests_tags : Node.isElementOf "TagsListInline" ∈ regionTests := by
  simp [regionTests]

theorem regionTests_meta : Node.isElementOf "meta" ∈ regionTests := by
  simp [regionTests]

theorem regionTests_readMore : Node.isReadMore ∈ regionTests := by
  simp [regionTests]

theorem isElementOf_ne_meta (t : String) (ht : t ≠ "meta") :
    Node.isElementOf t ≠ Node.isElementOf "meta" := by
  intro h
  have h2 := congrFun h (.element "meta" [] [])
  simp [Node.isElementOf] at h2
  exact ht h2.symm

theorem isReadMore_ne_meta : Node.isReadMore ≠ Node.isElementOf "meta" := by
  intro h
  have h2 := congrFun h (.element "meta" [] [])
  simp [Node.isElementOf, Node.isReadMore] at h2

theorem article_contains_footer (env : Env) (props : Props) :
    (BlogPostItem env props).containsElement "footer"
      = (decide (props.metadata.tags.length > 0) || props.truncated) := by
  unfold Node.containsElement
  rw [article_any env props _ regionTests_footer,
    imageMeta_any_false env props _ regionTests_footer (isElementOf_ne_meta _ (by decide)),
    footerRegion_any_footer, Bool.false_or]

theorem article_contains_tags (env : Env) (props : Props) :
    (BlogPostItem env props).containsElement "TagsListInline"
      = decide (props.metadata.tags.length > 0) := by
  unfold Node.containsElement
  rw [article_any env props _ regionTests_tags,
    imageMeta_any_false env props _ regionTests_tags (isElementOf_ne_meta _ (by decide)),
    footerRegion_any_tags, Bool.false_or]

theorem article_contains_edit (env : Env) (props : Props) :
    (BlogPostItem env props).containsElement "EditThisPage"
      = ((decide (props.metadata.tags.length > 0) || props.truncated)
          && (props.isBlogPostPageFlag && props.metadata.editUrl.truthy)) := by
  unfold Node.containsElement
  rw [article_any env props _ regionTests_edit,
    imageMeta_any_false env props _ regionTests_edit (isElementOf_ne_meta _ (by decide)),
    footerRegion_any_edit, Bool.false_or]

theorem article_contains_readMore (env : Env) (props : Props) :
    (BlogPostItem env props).containsReadMore
      = (!props.isBlogPostPageFlag && props.truncated) := by
  unfold Node.containsReadMore
  rw [article_any env props _ regionTests_readMore,
    imageMeta_any_false env props _ regionTests_readMore isReadMore_ne_meta,
    footerRegion_any_readMore, Bool.false_or]

theorem article_contains_meta (env : Env) (props : Props) :
    (BlogPostItem env props).containsElement "meta"
      = (resolveImage props.assets props.frontMatter).truthy := by
  unfold Node.containsElement
  rw [article_any env props _ regionTests_meta, imageMeta_any_meta, footerRegion_any_meta,
    Bool.or_false]

theorem article_readMore_eq (env : Env) (props : Props) (m : Node)
    (hm : m ∈ (BlogPostItem env props).descendants) (hr : m.isReadMore = true) :
    m = readMoreLink props.metadata := by
  rw [article_descendants] at hm
  simp only [List.mem_cons, List.mem_append] at hm
  have hno : ∀ l : List Node, l.any Node.isReadMore = false → m ∈ l → False := by
    intro l hl hmem
    have := List.any_eq_false.1 hl m hmem
    exact this hr
  rcases hm with rfl | hm | hm | hm | hm
  · have := article_root_false env props _ regionTests_readMore
    rw [this] at hr
    exact absurd hr (by decide)
  · exact (hno _ (header_any_false env props _ regionTests_readMore) hm).elim
  · exact (hno _ (imageMeta_any_false env props _ regionTests_readMore isReadMore_ne_meta)
      hm).elim
  · exact (hno _ (body_any_false props _ regionTests_readMore) hm).elim
  · exact footerRegion_readMore_eq env props m hm hr

theorem footerRegion_edit_mem (env : Env) (props : Props) (u : JSString)
    (hpage : props.isBlogPostPageFlag = true)
    (hedit : props.metadata.editUrl = .string u) (hu : u ≠ [])
    (hfooter : props.metadata.tags.length > 0 ∨ props.truncated = true) :
    Node.element "EditThisPage" [("editUrl", .string u)] []
      ∈ (footerRegion env props).descendants := by
  rcases props with ⟨c, fm, as, md, tr, ib⟩
  rcases md with ⟨d, fd, pl, tg, rt, ti, eu, au⟩
  simp only at hedit hfooter
  subst hedit
  have hg : (decide (tg.length > 0) || tr) = true := by
    rcases hfooter with h | h
    · simp [h]
    · simp [h]
  have hne : u.isEmpty = false := by
    cases u with
    | nil => exact absurd rfl hu
    | cons x xs => rfl
  simp only [footerRegion, andNode, hg, if_true, footer, hpage, OptString.andNode, hne,
    Node.descendants, Node.descendantsList]
  simp [Node.descendants, Node.descendantsList]

theorem article_mem_of_footerRegion (env : Env) (props : Props) (m : Node)
    (hm : m ∈ (footerRegion env props).descendants) :
    m ∈ (BlogPostItem env props).descendants := by
  rw [article_descendants]
  simp only [List.mem_cons, List.mem_append]
  exact Or.inr (Or.inr (Or.inr (Or.inr hm)))

theorem readMoreLink_mem (env : Env) (props : Props)
    (hpage : props.isBlogPostPageFlag = false) (htr : props.truncated = true) :
    readMoreLink props.metadata ∈ (BlogPostItem env props).descendants := by
  apply article_mem_of_footerRegion
  simp only [footerRegion, andNode, htr, Bool.or_true, if_true, footer, hpage, Bool.not_false,
    Bool.and_self, Node.descendants, Node.descendantsList]
  simp [readMoreLink, Node.descendants, Node.descendantsList]

/-! ## The image, the footer and its affordances -/

/-- C9: the resolved image is `assets.image` when that is a string, and
`frontMatter.image` when `assets.image` is undefined or null; `"a.png"` over
`"b.png"` resolves to `"a.png"`, an absent `assets.image` with `"b.png"`
resolves to `"b.png"`; the article holds the image meta element exactly when
the resolved image is a non-empty string, and its content is then
`withBaseUrl(image, absolute)`. -/
theorem image_resolution (env : Env) (props : Props) :
    (∀ s, props.assets.image = .string s →
      resolveImage props.assets props.frontMatter = .string s) ∧
    (props.assets.image = .undefined ∨ props.assets.image = .null →
      resolveImage props.assets props.frontMatter = props.frontMatter.image) ∧
    resolveImage ⟨.string (str "a.png")⟩ ⟨.string (str "b.png")⟩ = .string (str "a.png") ∧
    resolveImage ⟨.undefined⟩ ⟨.string (str "b.png")⟩ = .string (str "b.png") ∧
    resolveImage ⟨.null⟩ ⟨.string (str "b.png")⟩ = .string (str "b.png") ∧
    ((BlogPostItem env props).containsElement "meta" = true ↔
      ∃ s, resolveImage props.assets props.frontMatter = .string s ∧ s ≠ []) ∧
    (∀ s, resolveImage props.assets props.frontMatter = .string s → s ≠ [] →
      imageMeta env props = .element "meta"
        [("itemProp", .string (str "image")), ("content", .string (env.withBaseUrl s true))]
        []) := by
  refine ⟨?_, ?_, rfl, rfl, rfl, ?_, ?_⟩
  · intro s h
    simp [resolveImage, OptString.nullish, h]
  · intro h
    rcases h with h | h <;> simp [resolveImage, OptString.nullish, h]
  · rw [article_contains_meta]
    cases resolveImage props.assets props.frontMatter with
    | undefined => simp [OptString.truthy]
    | null => simp [OptString.truthy]
    | string u => cases u <;> simp [OptString.truthy]
  · intro s h hs
    cases s with
    | nil => exact absurd rfl hs
    | cons x xs => simp [imageMeta, h, OptString.andNode]

/-- The image of a post whose `assets.image` is undefined and whose
`frontMatter.image` is `"b.png"`. -/
theorem image_resolution_sample :
    sampleProps.assets.image = .undefined ∧
    resolveImage sampleProps.assets sampleProps.frontMatter = .string (str "b.png") ∧
    imageMeta sampleEnv sampleProps = .element "meta"
      [("itemProp", .string (str "image")), ("content", .string (str "b.png"))] [] :=
  have h := image_resolution sampleEnv sampleProps
  ⟨rfl, h.2.1 (Or.inl rfl), h.2.2.2.2.2.2 (str "b.png") rfl (by decide)⟩

/-- C5: the article holds a footer element exactly when `tags.length > 0` or
`truncated` is true; with no tags and `truncated` false it holds no footer, no
tag list, no edit affordance and no read-more affordance. -/
theorem footer_iff_tags_or_truncated (env : Env) (props : Props) :
    ((BlogPostItem env props).containsElement "footer" = true ↔
      (props.metadata.tags.length > 0 ∨ props.truncated = true)) ∧
    (props.metadata.tags = [] → props.truncated = false →
      (BlogPostItem env props).containsElement "footer" = false ∧
      (BlogPostItem env props).containsElement "TagsListInline" = false ∧
      (BlogPostItem env props).containsElement "EditThisPage" = false ∧
      (BlogPostItem env props).containsReadMore = false) := by
  refine ⟨?_, ?_⟩
  · rw [article_contains_footer]
    simp
  · intro ht htr
    rw [article_contains_footer, article_contains_tags, article_contains_edit,
      article_contains_readMore]
    simp [ht, htr]

/-- A full post page without tags and not truncated has no footer. -/
theorem footer_iff_tags_or_truncated_sample :
    sampleProps.metadata.tags = [] ∧ sampleProps.truncated = false ∧
    (BlogPostItem sampleEnv sampleProps).containsElement "footer" = false ∧
    (BlogPostItem sampleEnv sampleProps).containsElement "TagsListInline" = false ∧
    (BlogPostItem sampleEnv sampleProps).containsElement "EditThisPage" = false ∧
    (BlogPostItem sampleEnv sampleProps).containsReadMore = false :=
  ⟨rfl, rfl, (footer_iff_tags_or_truncated sampleEnv sampleProps).2 rfl rfl⟩

/-- C6: the article holds the read-more link exactly when `isBlogPostPage` is
false and `truncated` is true; every read-more link in it is a `Link` to
`permalink` whose `aria-label` is `"Read more about " + title`; the edit
affordance and the read-more link are never both present. -/
theorem readMore_iff_excerpt_truncated (env : Env) (props : Props) :
    ((BlogPostItem env props).containsReadMore = true ↔
      (props.isBlogPostPageFlag = false ∧ props.truncated = true)) ∧
    (∀ m ∈ (BlogPostItem env props).descendants, m.isReadMore = true →
      m = .element "Link"
        [("to", .string props.metadata.permalink),
         ("aria-label", .string (str "Read more about " ++ props.metadata.title))]
        [.element "b" []
          [.element "Translate"
            [("id", .string (str "theme.blog.post.readMore")),
             ("description", .string
                (str "The label used in blog post item excerpts to link to full blog posts"))]
            [.text (str "Read More")]]]) ∧
    ¬ ((BlogPostItem env props).containsElement "EditThisPage" = true ∧
        (BlogPostItem env props).containsReadMore = true) := by
  refine ⟨?_, ?_, ?_⟩
  · rw [article_contains_readMore]
    simp
  · intro m hm hr
    exact article_readMore_eq env props m hm hr
  · rw [article_contains_edit, article_contains_readMore]
    cases props.isBlogPostPageFlag <;> simp

/-- A truncated excerpt holds the read-more link, and that link points to the
permalink with the label built from the title. -/
theorem readMore_iff_excerpt_truncated_sample :
    (BlogPostItem sampleEnv
        { sampleProps with truncated := true, isBlogPostPage := none }).containsReadMore = true ∧
    (Node.element "Link"
        [("to", .string (str "/en/blog/my-post")),
         ("aria-label", .string (str "Read more about My post"))]
        [.element "b" []
          [.element "Translate"
            [("id", .string (str "theme.blog.post.readMore")),
             ("description", .string
                (str "The label used in blog post item excerpts to link to full blog posts"))]
            [.text (str "Read More")]]]) = readMoreLink sampleMetadata :=
  have h := readMore_iff_excerpt_truncated sampleEnv
    { sampleProps with truncated := true, isBlogPostPage := none }
  ⟨h.1.2 ⟨rfl, rfl⟩,
    (h.2.1 (readMoreLink sampleMetadata) (readMoreLink_mem sampleEnv _ rfl rfl) rfl).symm⟩

/-- C4, as stated, fails: a full post page with `editUrl` defined but with no
tags and `truncated` false renders no footer and so no edit affordance; and a
full post page whose `editUrl` is the empty string renders none either, even
with a footer. -/
theorem edit_absent_without_footer :
    sampleProps.isBlogPostPage = some true ∧
    sampleProps.metadata.editUrl = .string (str "https://example.org/edit") ∧
    sampleProps.metadata.tags = [] ∧
    sampleProps.truncated = false ∧
    (BlogPostItem sampleEnv sampleProps).containsElement "EditThisPage" = false ∧
    (truncatedPageProps (.string (str ""))).isBlogPostPage = some true ∧
    (truncatedPageProps (.string (str ""))).truncated = true ∧
    (BlogPostItem sampleEnv (truncatedPageProps (.string (str "")))).containsElement "footer"
      = true ∧
    (BlogPostItem sampleEnv (truncatedPageProps (.string (str "")))).containsElement
      "EditThisPage" = false := by
  decide

/-- C4, amended: for every input with `isBlogPostPage = true`, `editUrl` a
non-empty string, and `tags` non-empty or `truncated` true, the article holds
the edit affordance (`EditThisPage` given `editUrl`) and does not hold the
read-more link. -/
theorem edit_present_on_page_with_footer (env : Env) (props : Props) (editUrl : JSString)
    (hpage : props.isBlogPostPage = some true)
    (hedit : props.metadata.editUrl = .string editUrl) (hne : editUrl ≠ [])
    (hfooter : props.metadata.tags.length > 0 ∨ props.truncated = true) :
    (BlogPostItem env props).containsNode
      (.element "EditThisPage" [("editUrl", .string editUrl)] []) ∧
    (BlogPostItem env props).containsElement "EditThisPage" = true ∧
    (BlogPostItem env props).containsReadMore = false := by
  have hflag : props.isBlogPostPageFlag = true := by
    simp [Props.isBlogPostPageFlag, hpage]
  have htruthy : props.metadata.editUrl.truthy = true := by
    rw [hedit]
    cases editUrl with
    | nil => exact absurd rfl hne
    | cons x xs => rfl
  refine ⟨?_, ?_, ?_⟩
  · exact article_mem_of_footerRegion env props _
      (footerRegion_edit_mem env props editUrl hflag hedit hne hfooter)
  · rw [article_contains_edit, hflag, htruthy]
    rcases hfooter with h | h <;> simp [h]
  · rw [article_contains_readMore, hflag]
    simp

/-- A truncated full post page with an edit URL holds the edit affordance and
no read-more link. -/
theorem edit_present_on_page_with_footer_sample :
    (truncatedPageProps (.string (str "https://example.org/edit"))).isBlogPostPage = some true ∧
    (truncatedPageProps (.string (str "https://example.org/edit"))).truncated = true ∧
    (BlogPostItem sampleEnv
      (truncatedPageProps (.string (str "https://example.org/edit")))).containsElement
        "EditThisPage" = true ∧
    (BlogPostItem sampleEnv
      (truncatedPageProps (.string (str "https://example.org/edit")))).containsReadMore
        = false :=
  have h := edit_present_on_page_with_footer sampleEnv
    (truncatedPageProps (.string (str "https://example.org/edit")))
    (str "https://example.org/edit") rfl rfl (by decide) (Or.inr rfl)
  ⟨rfl, rfl, h.2.1, h.2.2⟩

end Theme
